import Mathlib

/-!
Shallow embedding of `src/data.rs` of the `clojure-reader` repository:
dynamically-typed values (`Datum`) erased behind the dyn-compatible trait
`DataTrait`, with its blanket implementation for every type providing
`Debug + Display + Clone + PartialEq + Eq + PartialOrd + Ord + Hash`.

Modelling choices, each translated from the source:

* A concrete Rust type is identified by its runtime `TypeId`.  The concrete
  types are modelled as a family `F : TypeId → Type`; in Rust two distinct
  concrete types always have distinct `TypeId`s, which the indexing captures
  by construction.  The trait dictionary a qualifying type supplies
  (`Clone`, `PartialEq`, `PartialOrd`, `Ord`, `Hash`, `Display`) is a
  `DataOps` record, one per index.
* `Datum(Box<dyn DataTrait>)` becomes a dependent pair of the payload's
  dynamic `TypeId` and the owned payload itself.
* A Rust panic (the `expect` inside the blanket `cmp_`) is modelled as
  `Except.error` carrying the panic message; genuinely returned `Option`
  values (`partial_cmp_`) stay `Option`.
* A `Hasher` is modelled extensionally as the sequence of byte slices
  written to it; a type's `Hash::hash` is abstracted by the sequence of
  `write` calls it performs for a given value (`DataOps.hashWrites`).
-/

namespace ClojureReaderData

/-- Runtime type identity: models `core::any::TypeId`.  Distinct concrete
types receive distinct tags. -/
abbrev TypeId := Nat

/-- Capability dictionary of a qualifying concrete Rust type `α`: the
operations supplied by its `Clone`, `PartialEq`, `PartialOrd`, `Ord`,
`Hash` and `Display` implementations, which the blanket
`impl<T> DataTrait for T` forwards to.  `hashWrites` abstracts
`Hash::hash` as the sequence of byte slices the value writes into the
hasher; `display` abstracts `Display::fmt` as the text produced. -/
structure DataOps (α : Type) where
  clone : α → α
  beq : α → α → Bool
  partialCmp : α → α → Option Ordering
  cmp : α → α → Ordering
  hashWrites : α → List (List Nat)
  display : α → String

/-- Hash accumulator: models a `dyn Hasher` extensionally as the list of
byte slices written so far (most recent last). -/
structure Hasher where
  writes : List (List Nat)
deriving DecidableEq

/-- Models `Hasher::write(&mut self, bytes: &[u8])`: append one slice. -/
def Hasher.write (s : Hasher) (bytes : List Nat) : Hasher :=
  ⟨s.writes ++ [bytes]⟩

/-- Models the local `struct Adapter<'a> { state: &'a mut dyn Hasher }`
inside the blanket `hash_`: its `Hasher` impl forwards every `write`
verbatim to the wrapped state. -/
def Adapter.write (s : Hasher) (bytes : List Nat) : Hasher :=
  Hasher.write s bytes

/-- Models `struct Datum(Box<dyn DataTrait>)`: an owned, type-erased
payload.  `tid` is the payload's dynamic type identity (what
`(*self.0).type_id()` would report), `val` the payload itself. -/
structure Datum (F : TypeId → Type) where
  tid : TypeId
  val : F tid

section Source

variable {F : TypeId → Type}

/-- Blanket `DataTrait::clone_` for a concrete type `F i`:
`Box::new(self.clone())`, i.e. a fresh erased handle holding `T::clone`
of the payload; the dynamic type is unchanged. -/
def cloneU (ops : ∀ i, DataOps (F i)) (i : TypeId) (x : F i) : Datum F :=
  ⟨i, (ops i).clone x⟩

/-- Blanket `DataTrait::eq_` for a concrete type `F i`:
`other.downcast_ref::<T>().is_some_and(|other| self.eq(other))` — the
method itself checks the other side's dynamic type; on mismatch the
downcast fails and the result is `false`, otherwise it compares with
`T::eq`. -/
def eqU (ops : ∀ i, DataOps (F i)) (i : TypeId) (x : F i) (other : Datum F) : Bool :=
  if h : other.tid = i then (ops i).beq x (cast (congrArg F h) other.val) else false

/-- Blanket `DataTrait::partial_cmp_` for a concrete type `F i`:
`other.downcast_ref::<T>().and_then(|other| self.partial_cmp(other))` —
`None` on dynamic-type mismatch, otherwise `T::partial_cmp`.  This
overrides the trait's default body, and it returns `None` rather than
panicking. -/
def partialCmpU (ops : ∀ i, DataOps (F i)) (i : TypeId) (x : F i) (other : Datum F) :
    Option Ordering :=
  if h : other.tid = i then (ops i).partialCmp x (cast (congrArg F h) other.val) else none

/-- Panic message of the `expect` inside the blanket `cmp_`. -/
def cmpPanicMsg : String := "Expected same lhs & rhs erased-types"

/-- Blanket `DataTrait::cmp_` for a concrete type `F i`:
`other.downcast_ref().expect("Expected same lhs & rhs erased-types")`
followed by `T::cmp`.  The `expect` on a failed downcast is a panic,
modelled as `Except.error` with the panic message. -/
def cmpU (ops : ∀ i, DataOps (F i)) (i : TypeId) (x : F i) (other : Datum F) :
    Except String Ordering :=
  if h : other.tid = i then .ok ((ops i).cmp x (cast (congrArg F h) other.val))
  else .error cmpPanicMsg

/-- Blanket `DataTrait::hash_` for a concrete type `F i`:
`self.hash(&mut Adapter { state })` — the value's `Hash::hash` performs
its sequence of writes, each forwarded unchanged by the `Adapter` into
the caller's hasher state. -/
def hashU (ops : ∀ i, DataOps (F i)) (i : TypeId) (x : F i) (state : Hasher) : Hasher :=
  ((ops i).hashWrites x).foldl Adapter.write state

/-- TypeId of the static type `Box<dyn DataTrait>` itself.  In
`impl PartialEq for Datum`, the call `Any::type_id(&self.0)` elaborates
with `Self = Box<dyn DataTrait>`: the argument `&self.0` has type
`&Box<dyn DataTrait>`, which unifies directly with `&Self` (no deref
coercion to `&dyn DataTrait` is attempted once unification succeeds),
and the blanket `impl<T: ?Sized + 'static> Any for T` applies to
`Box<dyn DataTrait>`.  The call therefore returns
`TypeId::of::<Box<dyn DataTrait>>()`, a constant independent of the
payload — not the payload's dynamic type id, which only
`(*self.0).type_id()` would give.  Its numeric value is irrelevant; it is
only ever compared with itself. -/
def boxDynDataTraitTypeId : TypeId := 0

/-- Value of `Any::type_id(&self.0)` for a `Datum`: the constant
`TypeId::of::<Box<dyn DataTrait>>()`, the same for every `Datum`
regardless of the payload's concrete type (see
`boxDynDataTraitTypeId`). -/
def Datum.fieldAnyTypeId (_d : Datum F) : TypeId :=
  boxDynDataTraitTypeId

/-- Models `impl PartialEq for Datum`:
`Any::type_id(&self.0) == Any::type_id(&other.0) && self.0.eq_(&*other.0)`.
The first conjunct compares `TypeId::of::<Box<dyn DataTrait>>()` with
itself (see `Datum.fieldAnyTypeId`); the second delegates to the erased
`eq_`. -/
def Datum.beq (ops : ∀ i, DataOps (F i)) (d1 d2 : Datum F) : Bool :=
  (Datum.fieldAnyTypeId d1 == Datum.fieldAnyTypeId d2) && eqU ops d1.tid d1.val d2

/-- Models `impl Clone for Datum`: `Self(self.0.clone_())`. -/
def Datum.clone (ops : ∀ i, DataOps (F i)) (d : Datum F) : Datum F :=
  cloneU ops d.tid d.val

/-- Models `impl PartialOrd for Datum`: `self.0.partial_cmp_(&*other.0)`,
with no identity pre-check by the caller. -/
def Datum.partialCmp (ops : ∀ i, DataOps (F i)) (d1 d2 : Datum F) : Option Ordering :=
  partialCmpU ops d1.tid d1.val d2

/-- Models `impl Ord for Datum`: `self.0.cmp_(&*other.0)`, with no
identity pre-check by the caller; a dynamic-type mismatch panics inside
`cmp_`. -/
def Datum.cmp (ops : ∀ i, DataOps (F i)) (d1 d2 : Datum F) : Except String Ordering :=
  cmpU ops d1.tid d1.val d2

/-- Models `impl Hash for Datum`: `self.0.hash_(state)`. -/
def Datum.hash (ops : ∀ i, DataOps (F i)) (d : Datum F) (state : Hasher) : Hasher :=
  hashU ops d.tid d.val state

/-- Models `impl fmt::Display for Datum`: `self.0.fmt(f)` forwards the
formatter to the payload's `Display` implementation unchanged. -/
def Datum.display (ops : ∀ i, DataOps (F i)) (d : Datum F) : String :=
  (ops d.tid).display d.val

/-- Models `Datum::new::<T>(t)`: wrap a concrete value; the recorded
dynamic type is `T`'s. -/
def Datum.new (i : TypeId) (v : F i) : Datum F :=
  ⟨i, v⟩

/-- Models `Datum::downcast::<T>(self)`: `let o: Box<dyn Any> = self.0;
o.downcast()` — succeeds with the owned payload when the payload's
dynamic type is `T` (index `j`), otherwise returns `Err` holding the
original erased box, its payload unchanged. -/
def Datum.downcast (d : Datum F) (j : TypeId) : Except (Datum F) (F j) :=
  if h : d.tid = j then .ok (cast (congrArg F h) d.val) else .error d

end Source

/-! Concrete instance used to witness the theorems below: a family with
two concrete types, `Nat` at tag 0 and `Bool` at every other tag,
each with its evident capability dictionary. -/

/-- Two-type example family: tag 0 is `Nat`, every other tag is `Bool`. -/
def ExFam : TypeId → Type
  | 0 => Nat
  | _ + 1 => Bool

/-- Capability dictionary for `Nat`. -/
def natOps : DataOps Nat where
  clone := fun n => n
  beq := fun a b => Nat.beq a b
  partialCmp := fun a b => some (compare a b)
  cmp := fun a b => compare a b
  hashWrites := fun n => [[n % 256, n / 256]]
  display := fun n => toString n

/-- Capability dictionary for `Bool`. -/
def boolOps : DataOps Bool where
  clone := fun b => b
  beq := fun a b => a == b
  partialCmp := fun a b => some (compare a b)
  cmp := fun a b => compare a b
  hashWrites := fun b => [[b.toNat]]
  display := fun b => toString b

/-- Dictionaries for the example family. -/
def exOps : (i : TypeId) → DataOps (ExFam i)
  | 0 => natOps
  | _ + 1 => boolOps

/-- A `Datum` of the example family wrapping a `Nat`. -/
def dNat (n : Nat) : Datum ExFam :=
  ⟨0, n⟩

/-- A `Datum` of the example family wrapping a `Bool`. -/
def dBool (b : Bool) : Datum ExFam :=
  ⟨1, b⟩

section Claims

variable {F : TypeId → Type}

/-- C1: for every value of concrete type `T` and every distinct type `U`,
`downcast::<U>()` on a `Datum` wrapping the value fails, and the failure
returns the original, still-erased value unchanged — no data loss, no
abort. -/
theorem downcast_wrong_type_preserves (d : Datum F) (j : TypeId) (h : d.tid ≠ j) :
    Datum.downcast d j = .error d := by
  unfold Datum.downcast
  rw [dif_neg h]

theorem downcast_wrong_type_preserves_witness :
    (dNat 5).tid ≠ 1 ∧ (dNat 5).downcast 1 = .error (dNat 5) :=
  ⟨by decide, downcast_wrong_type_preserves (dNat 5) 1 (by decide)⟩

/-- C5: for every value `v` of concrete type `T`, `downcast::<T>()` on a
`Datum` wrapping `v` succeeds and returns `v` itself. -/
theorem downcast_same_type_ok (i : TypeId) (v : F i) :
    Datum.downcast (Datum.new i v) i = .ok v := by
  unfold Datum.downcast Datum.new
  rw [dif_pos rfl]
  simp [cast_eq]

/-- C4: for every pair of payloads of distinct concrete types,
`Datum::eq` returns `false` — never `true` and, being a total `Bool`
function, never a fatal error. -/
theorem eq_cross_type_false (ops : ∀ i, DataOps (F i)) (d1 d2 : Datum F)
    (h : d1.tid ≠ d2.tid) :
    Datum.beq ops d1 d2 = false := by
  unfold Datum.beq eqU
  rw [dif_neg (fun hh => h hh.symm)]
  simp

theorem eq_cross_type_false_witness :
    (dNat 5).tid ≠ (dBool true).tid ∧ Datum.beq exOps (dNat 5) (dBool true) = false :=
  ⟨by decide, eq_cross_type_false exOps (dNat 5) (dBool true) (by decide)⟩

/-- C3: for every pair of payloads of distinct concrete types, the total
order `Datum::cmp` panics (the `expect` inside the blanket `cmp_`),
modelled as `Except.error` with the panic message — never a recoverable
result, never a silently wrong ordering; no identity pre-check happens
before the delegation. -/
theorem cmp_cross_type_fatal (ops : ∀ i, DataOps (F i)) (d1 d2 : Datum F)
    (h : d1.tid ≠ d2.tid) :
    Datum.cmp ops d1 d2 = .error cmpPanicMsg := by
  unfold Datum.cmp cmpU
  rw [dif_neg (fun hh => h hh.symm)]

theorem cmp_cross_type_fatal_witness :
    (dNat 0).tid ≠ (dBool false).tid ∧
    Datum.cmp exOps (dNat 0) (dBool false) = .error cmpPanicMsg :=
  ⟨by decide, cmp_cross_type_fatal exOps (dNat 0) (dBool false) (by decide)⟩

/-- C9: for every pair of payloads of distinct concrete types, the
partial order `Datum::partial_cmp` returns `None`: a defined, total
operation that neither panics nor returns a misleading ordering. -/
theorem partialCmp_cross_type_none (ops : ∀ i, DataOps (F i)) (d1 d2 : Datum F)
    (h : d1.tid ≠ d2.tid) :
    Datum.partialCmp ops d1 d2 = none := by
  unfold Datum.partialCmp partialCmpU
  rw [dif_neg (fun hh => h hh.symm)]

theorem partialCmp_cross_type_none_witness :
    (dNat 2).tid ≠ (dBool true).tid ∧ Datum.partialCmp exOps (dNat 2) (dBool true) = none :=
  ⟨by decide, partialCmp_cross_type_none exOps (dNat 2) (dBool true) (by decide)⟩

/-- C7: for every two payloads of the same concrete type with `v1 < v2`
under that type's native total order (its `cmp` reports `lt`),
`Datum::cmp` on the wrapping `Datum`s succeeds and reports `lt`. -/
theorem cmp_same_type_lt (ops : ∀ i, DataOps (F i)) (i : TypeId) (v1 v2 : F i)
    (h : (ops i).cmp v1 v2 = .lt) :
    Datum.cmp ops (Datum.new i v1) (Datum.new i v2) = .ok .lt := by
  unfold Datum.cmp cmpU Datum.new
  rw [dif_pos rfl]
  simp [cast_eq, h]

theorem cmp_same_type_lt_witness :
    natOps.cmp 1 2 = .lt ∧ Datum.cmp exOps (dNat 1) (dNat 2) = .ok .lt :=
  ⟨by decide, cmp_same_type_lt exOps 0 ((1 : Nat) : ExFam 0) ((2 : Nat) : ExFam 0) (by decide)⟩

/-- C10: displaying a `Datum` produces exactly the text of displaying the
wrapped value directly — the `Display` impl forwards the formatter to the
payload unchanged, adding no decoration. -/
theorem display_forwards (ops : ∀ i, DataOps (F i)) (i : TypeId) (v : F i) :
    Datum.display ops (Datum.new i v) = (ops i).display v := rfl

/-- C6: cloning a `Datum` yields a handle equal to the original under
`Datum::eq`, given that the payload type's own `Clone` produces a value
its `PartialEq` deems equal (the conventional contract of a qualifying
type); the clone operation itself is a total function and never fails. -/
theorem clone_eq_original (ops : ∀ i, DataOps (F i)) (d : Datum F)
    (hcl : (ops d.tid).beq ((ops d.tid).clone d.val) d.val = true) :
    Datum.beq ops (Datum.clone ops d) d = true := by
  unfold Datum.beq Datum.clone cloneU eqU
  rw [dif_pos rfl]
  simp [cast_eq, hcl, Datum.fieldAnyTypeId]

theorem clone_eq_original_witness :
    (exOps (dNat 7).tid).beq ((exOps (dNat 7).tid).clone (dNat 7).val) (dNat 7).val = true ∧
    Datum.beq exOps (Datum.clone exOps (dNat 7)) (dNat 7) = true :=
  ⟨by decide, clone_eq_original exOps (dNat 7) (by decide)⟩

/-- C8: hashing is consistent with equality: whenever `Datum::eq` holds
of two `Datum`s, feeding each through `Datum::hash` into the same hash
accumulator state produces the same resulting state, assuming the wrapped
concrete type's own `Hash` is consistent with its `Eq`. -/
theorem beq_hash_consistent (ops : ∀ i, DataOps (F i)) (d1 d2 : Datum F)
    (hlaw : ∀ x y : F d1.tid, (ops d1.tid).beq x y = true →
      (ops d1.tid).hashWrites x = (ops d1.tid).hashWrites y)
    (h : Datum.beq ops d1 d2 = true) (s : Hasher) :
    Datum.hash ops d1 s = Datum.hash ops d2 s := by
  obtain ⟨t1, v1⟩ := d1
  obtain ⟨t2, v2⟩ := d2
  unfold Datum.beq eqU at h
  simp only [Bool.and_eq_true] at h
  obtain ⟨-, h2⟩ := h
  by_cases ht : t2 = t1
  · subst ht
    rw [dif_pos rfl] at h2
    rw [cast_eq] at h2
    unfold Datum.hash hashU
    rw [hlaw v1 v2 h2]
  · rw [dif_neg ht] at h2
    exact absurd h2 (by simp)

theorem beq_hash_consistent_witness :
    Datum.beq exOps (dNat 3) (dNat 3) = true ∧
    Datum.hash exOps (dNat 3) ⟨[]⟩ = Datum.hash exOps (dNat 3) ⟨[]⟩ :=
  ⟨by decide, beq_hash_consistent exOps (dNat 3) (dNat 3)
    (fun x y hxy => by rw [@Nat.eq_of_beq_eq_true x y hxy]) (by decide) ⟨[]⟩⟩

/-- C2: the type-identity conjunct of `Datum::eq` is degenerate: it
compares `TypeId::of::<Box<dyn DataTrait>>()` with itself, so it
evaluates to `true` for every pair of `Datum`s — including pairs of
distinct payload types — and `eq_` is consulted on every call; the
cross-type `false` comes from the `downcast_ref` check inside `eq_`
itself, not from the caller's guard. Illustrated on a concrete
cross-type pair. -/
theorem eq_typeid_guard_degenerate :
    (∀ (G : TypeId → Type) (ops : ∀ i, DataOps (G i)) (d1 d2 : Datum G),
      (Datum.fieldAnyTypeId d1 == Datum.fieldAnyTypeId d2) = true ∧
      Datum.beq ops d1 d2 = eqU ops d1.tid d1.val d2) ∧
    (dNat 4).tid ≠ (dBool true).tid ∧
    (Datum.fieldAnyTypeId (dNat 4) == Datum.fieldAnyTypeId (dBool true)) = true ∧
    Datum.beq exOps (dNat 4) (dBool true) = false := by
  refine ⟨fun G ops d1 d2 => ⟨rfl, ?_⟩, by decide, rfl, by decide⟩
  simp [Datum.beq, Datum.fieldAnyTypeId]

end Claims

end ClojureReaderData
